import Mathlib

/-!
Verification development for the binge recommender notebook
(src/you_do_1/bahadirerdem/notebooks/recommender_system.ipynb).

The interaction matrix is embedded as a list of dense rows of rationals.
Randomness that the source draws from seeded or ambient NumPy state is
embedded by an explicit linear-congruential stream: what matters for the
claims below is which seed feeds which computation, and that seeded
streams are deterministic functions of their seed.
-/

namespace Recommender

/-- A row of the user-item matrix: one rational weight per item column. -/
abbrev Row := List ℚ

/-- A user-item matrix: one row per user. -/
abbrev Mat := List Row

/-- Number of nonzero entries of one row. -/
def nnzRow (r : Row) : ℕ := r.countP (fun x => decide (x ≠ 0))

/-- Number of nonzero entries of a matrix (scipy nnz). -/
def nnz (m : Mat) : ℕ := (m.map nnzRow).sum

/-- One step of a linear congruential generator, standing in for the
pseudo-random streams the source obtains from NumPy. -/
def lcgNext (s : ℕ) : ℕ := (1664525 * s + 1013904223) % 4294967296

/-- The i-th state of the generator started from seed s. -/
def lcgIter (s : ℕ) : ℕ → ℕ
  | 0 => lcgNext s
  | i + 1 => lcgNext (lcgIter s i)

/-- Comparison of index-key pairs by key, used to shuffle by sorting. -/
def keyLE (x y : ℕ × ℕ) : Prop := x.1 ≤ y.1

instance : DecidableRel keyLE := fun x y => by unfold keyLE; infer_instance

/-- The permutation of 0..n-1 that a seeded shuffle produces: indices
sorted by their seed-derived pseudo-random keys.  Embeds
numpy.random.RandomState(seed).permutation(n) as used by sklearn's
train_test_split with shuffle=True. -/
def permOfSeed (s n : ℕ) : List ℕ :=
  (List.insertionSort keyLE ((List.range n).map (fun i => (lcgIter s i, i)))).map
    (fun p => p.2)

/-- Number of test samples sklearn's train_test_split allocates for a
fractional test_size: ceil(test_size * n_samples). -/
def nTestCount (n : ℕ) (f : ℚ) : ℕ := (Int.ceil (f * (n : ℚ))).toNat

/-- Embedding of sklearn.model_selection.train_test_split applied to the
csr interaction matrix (notebook fit, lines 163-169): the ROWS of the
matrix are shuffled by the seed-derived permutation, the first
ceil(test_size*n) shuffled rows form the test set and the remaining rows
form the train set.  Entries are never split individually. -/
def splitRows (m : Mat) (perm : List ℕ) (f : ℚ) : Mat × Mat :=
  let t := nTestCount m.length f
  ((perm.drop t).map (fun i => m.getD i []),
   (perm.take t).map (fun i => m.getD i []))

theorem range_map_getD {α : Type} (l : List α) (d : α) :
    (List.range l.length).map (fun i => l.getD i d) = l := by
  induction l with
  | nil => rfl
  | cons a t ih =>
    rw [List.length_cons, List.range_succ_eq_map, List.map_cons, List.map_map]
    simp only [Function.comp_def, List.getD_cons_zero, List.getD_cons_succ]
    rw [ih]

theorem permOfSeed_perm (s n : ℕ) : (permOfSeed s n).Perm (List.range n) := by
  unfold permOfSeed
  have h1 := List.perm_insertionSort keyLE ((List.range n).map (fun i => (lcgIter s i, i)))
  have h2 := h1.map (fun p : ℕ × ℕ => p.2)
  rw [List.map_map] at h2
  simpa [Function.comp_def] using h2

theorem nnz_perm {l l' : Mat} (h : l.Perm l') : nnz l = nnz l' := by
  unfold nnz
  exact (h.map nnzRow).sum_eq

/-- The two halves of the row split, concatenated, are a permutation of the
shuffled original rows. -/
theorem splitRows_append_perm (m : Mat) (s : ℕ) (f : ℚ) :
    ((splitRows m (permOfSeed s m.length) f).1
      ++ (splitRows m (permOfSeed s m.length) f).2).Perm m := by
  unfold splitRows
  set p := permOfSeed s m.length with hp
  set t := nTestCount m.length f with ht
  rw [← List.map_append]
  have hrot : (p.drop t ++ p.take t).Perm p :=
    (List.perm_append_comm).trans (by rw [List.take_append_drop])
  have h1 := hrot.map (fun i => m.getD i [])
  have h2 := (permOfSeed_perm s m.length).map (fun i => m.getD i [])
  rw [range_map_getD] at h2
  exact h1.trans h2

/-- C1: the claim asserts the split preserves the matrix shape.  It does
not: on the concrete 2-row matrix [[1],[2]] with test_size 1/2 and seed 0,
the train copy has 1 row while the matrix has 2 — the source splits whole
rows (users), not entries. -/
theorem c1_counterexample :
    (splitRows [[(1 : ℚ)], [2]] (permOfSeed 0 2) (1/2)).1.length
      ≠ ([[(1 : ℚ)], [2]] : Mat).length := by
  have hn : nTestCount 2 2⁻¹ = 1 := by norm_num [nTestCount]
  have hp : permOfSeed 0 2 = [0, 1] := by decide
  simp [splitRows, hn, hp]

/-- C1 (amended): for every matrix and seed, the split partitions the
ROWS (users) of the matrix, not its entries: the train and test copies'
nonzero entry counts sum to the original total, and train and test rows
together are a permutation of the original rows, so every row lands in
exactly one of the two copies.  The matrix shape is not preserved. -/
theorem split_partitions_rows (m : Mat) (s : ℕ) (f : ℚ) :
    nnz (splitRows m (permOfSeed s m.length) f).1
        + nnz (splitRows m (permOfSeed s m.length) f).2 = nnz m
      ∧ ((splitRows m (permOfSeed s m.length) f).1
          ++ (splitRows m (permOfSeed s m.length) f).2).Perm m := by
  refine ⟨?_, splitRows_append_perm m s f⟩
  have hperm := splitRows_append_perm m s f
  have := nnz_perm hperm
  unfold nnz at this ⊢
  rw [List.map_append, List.sum_append] at this
  exact this

/-- One raw interaction triple handed to get_sparse: a (user_id, movie_id,
rating) row of the cleaned ratings frame. -/
structure Interaction where
  user : ℕ
  item : ℕ
  weight : ℚ

/-- C-style truncation toward zero, as performed elementwise by numpy
astype on the int32 cast at the end of get_sparse. -/
def truncInt (q : ℚ) : ℤ := if 0 ≤ q then Int.floor q else Int.ceil q

/-- The input rows whose (user, item) coordinates hit a given cell. -/
def cooMatches (l : List Interaction) (u i : ℕ) : List Interaction :=
  l.filter (fun t => t.user == u && t.item == i)

/-- Embedding of RecommenderSystem.get_sparse: scipy's COO-to-CSR
construction sums every input weight that lands on the same (user, item)
cell, and the astype int32 call truncates the summed value toward zero.
A cell no input row hits holds 0. -/
def get_sparse_entry (l : List Interaction) (u i : ℕ) : ℤ :=
  truncInt ((cooMatches l u i).map (fun t => t.weight)).sum

/-- A valid interaction set in the sense of the data model: at most one
entry per (user, item) pair. -/
def distinctPairs (l : List Interaction) : Prop :=
  l.Pairwise (fun a b => a.user ≠ b.user ∨ a.item ≠ b.item)

theorem truncInt_intCast (z : ℤ) : truncInt (z : ℚ) = z := by
  unfold truncInt
  split
  · exact Int.floor_intCast z
  · exact Int.ceil_intCast z

theorem cooMatches_single (l : List Interaction) (t : Interaction)
    (hd : distinctPairs l) (ht : t ∈ l) :
    cooMatches l t.user t.item = [t] := by
  unfold distinctPairs at hd
  induction l with
  | nil => cases ht
  | cons a rest ih =>
    rw [List.pairwise_cons] at hd
    rcases hd with ⟨ha, hrest⟩
    rcases List.mem_cons.mp ht with rfl | htr
    · unfold cooMatches
      rw [List.filter_cons_of_pos (by simp)]
      have hnil : rest.filter (fun x => x.user == t.user && x.item == t.item) = [] := by
        rw [List.filter_eq_nil_iff]
        intro b hb
        have hab := ha b hb
        simp only [Bool.and_eq_true, beq_iff_eq, not_and]
        intro h1 h2
        rcases hab with h | h
        · exact absurd h1.symm h
        · exact absurd h2.symm h
      rw [hnil]
    · unfold cooMatches
      have hne := ha t htr
      rw [List.filter_cons_of_neg ?_]
      · exact ih hrest htr
      · simp only [Bool.and_eq_true, beq_iff_eq, not_and]
        intro h1 h2
        rcases hne with h | h
        · exact absurd h1 h
        · exact absurd h2 h

theorem cooMatches_nil (l : List Interaction) (u i : ℕ)
    (h : ∀ t ∈ l, t.user ≠ u ∨ t.item ≠ i) :
    cooMatches l u i = [] := by
  unfold cooMatches
  rw [List.filter_eq_nil_iff]
  intro b hb
  simp only [Bool.and_eq_true, beq_iff_eq, not_and]
  intro h1 h2
  rcases h b hb with hh | hh
  · exact absurd h1 hh
  · exact absurd h2 hh

/-- C8: the claim asserts that reading back a stored weight is exact for
every valid interaction set.  It is not: the int32 cast at the end of
get_sparse truncates the fractional weight 3/2 down to 1. -/
theorem c8_counterexample :
    ((get_sparse_entry [Interaction.mk 0 0 (3/2)] 0 0 : ℤ) : ℚ) ≠ 3/2 := by
  norm_num [get_sparse_entry, cooMatches, truncInt]

/-- C8 (amended): over a valid interaction set (at most one entry per
(user, item) pair), reading back a stored pair yields the supplied weight
truncated toward zero by the int32 cast — exactly the original weight
whenever that weight is an integer — and any absent pair reads back 0;
duplicate merging never fires on valid input. -/
theorem get_sparse_readback (l : List Interaction) (hd : distinctPairs l) :
    (∀ t ∈ l, get_sparse_entry l t.user t.item = truncInt t.weight)
      ∧ (∀ u i, (∀ t ∈ l, t.user ≠ u ∨ t.item ≠ i) → get_sparse_entry l u i = 0)
      ∧ (∀ t ∈ l, ∀ z : ℤ, t.weight = (z : ℚ) →
          get_sparse_entry l t.user t.item = z) := by
  refine ⟨?_, ?_, ?_⟩
  · intro t ht
    unfold get_sparse_entry
    rw [cooMatches_single l t hd ht]
    simp
  · intro u i h
    unfold get_sparse_entry
    rw [cooMatches_nil l u i h]
    simp [truncInt]
  · intro t ht z hz
    unfold get_sparse_entry
    rw [cooMatches_single l t hd ht]
    simp [hz, truncInt_intCast]

/-- Witness for the amended C8 readback theorem at a concrete two-row
interaction set holding an integer and a fractional weight. -/
theorem get_sparse_readback_witness :
    distinctPairs [Interaction.mk 0 0 3, Interaction.mk 0 1 (3/2)]
      ∧ (∀ t ∈ [Interaction.mk 0 0 3, Interaction.mk 0 1 (3/2)],
          get_sparse_entry [Interaction.mk 0 0 3, Interaction.mk 0 1 (3/2)]
            t.user t.item = truncInt t.weight) := by
  have hd : distinctPairs [Interaction.mk 0 0 3, Interaction.mk 0 1 (3/2)] := by
    unfold distinctPairs
    simp
  exact ⟨hd,
    (get_sparse_readback [Interaction.mk 0 0 3, Interaction.mk 0 1 (3/2)] hd).1⟩

/-- Value of the score arithmetic inside compare_movies.  The scores are
numpy float32 scalars, so dividing by a zero score does not raise: it
yields an infinity, or NaN for 0/0.  Finite values are carried exactly as
rationals; the special values record the IEEE behaviour the claims turn
on. -/
inductive FVal where
  | fin : ℚ → FVal
  | pinf : FVal
  | ninf : FVal
  | nan : FVal

/-- Subtraction of two finite scores. -/
def fsub (a b : FVal) : FVal :=
  match a, b with
  | FVal.fin x, FVal.fin y => FVal.fin (x - y)
  | _, _ => FVal.nan

/-- IEEE division: a finite numerator over a zero denominator gives a
signed infinity, 0/0 gives NaN. -/
def fdiv (a b : FVal) : FVal :=
  match a, b with
  | FVal.fin x, FVal.fin y =>
    if y = 0 then
      if x = 0 then FVal.nan else if 0 < x then FVal.pinf else FVal.ninf
    else FVal.fin (x / y)
  | _, _ => FVal.nan

/-- Multiplication by the positive constant 100. -/
def fmul100 (a : FVal) : FVal :=
  match a with
  | FVal.fin x => FVal.fin (x * 100)
  | FVal.pinf => FVal.pinf
  | FVal.ninf => FVal.ninf
  | FVal.nan => FVal.nan

/-- Absolute value: both infinities map to positive infinity, NaN stays. -/
def fabs (a : FVal) : FVal :=
  match a with
  | FVal.fin x => FVal.fin |x|
  | FVal.pinf => FVal.pinf
  | FVal.ninf => FVal.pinf
  | FVal.nan => FVal.nan

/-- Comparison against a finite threshold: any comparison with NaN is
false, positive infinity exceeds every finite threshold. -/
def fgtQ (a : FVal) (t : ℚ) : Bool :=
  match a with
  | FVal.fin x => decide (t < x)
  | FVal.pinf => true
  | FVal.ninf => false
  | FVal.nan => false

/-- The dataframe rows compare_movies and the cold-start path read: one
(movie_id, score) pair per row; a movie can occur on several rows, all
carrying its one aggregate score. -/
abbrev ScoreFrame := List (ℕ × ℚ)

/-- Embedding of the pandas selection
df.loc[df.movie_id == id, score].iloc[0]: the score of the first row
whose movie_id matches, and nothing (an IndexError at .iloc[0]) when no
row matches. -/
def lookupScore (df : ScoreFrame) (movieId : ℕ) : Option ℚ :=
  ((df.filter (fun r => r.1 == movieId)).head?).map (fun r => r.2)

/-- Error outcomes of compare_movies: the explicit ValueError raised for
a threshold outside [0, 100], and the IndexError escaping from .iloc[0]
when a movie id matches no row. -/
inductive CompareError where
  | invalidThreshold : CompareError
  | indexError : CompareError

/-- Embedding of RecommenderSystem.compare_movies: validate the
threshold, look both scores up (first movie first, as Python evaluates
the tuple), then return whether |((score_a - score_b) / score_a) * 100|
computed in float arithmetic strictly exceeds the threshold. -/
def compare_movies (df : ScoreFrame) (a b : ℕ) (t : ℚ) : Except CompareError Bool :=
  if 100 < t ∨ t < 0 then Except.error CompareError.invalidThreshold
  else
    match lookupScore df a with
    | Option.none => Except.error CompareError.indexError
    | Option.some sa =>
      match lookupScore df b with
      | Option.none => Except.error CompareError.indexError
      | Option.some sb =>
        Except.ok (fgtQ (fabs (fmul100 (fdiv (fsub (FVal.fin sa) (FVal.fin sb))
          (FVal.fin sa)))) t)

theorem compare_movies_eval (df : ScoreFrame) (a b : ℕ) (t sa sb : ℚ)
    (ht0 : 0 ≤ t) (ht1 : t ≤ 100)
    (ha : lookupScore df a = Option.some sa)
    (hb : lookupScore df b = Option.some sb) :
    compare_movies df a b t
      = Except.ok (fgtQ (fabs (fmul100 (fdiv (FVal.fin (sa - sb))
          (FVal.fin sa)))) t) := by
  unfold compare_movies
  rw [if_neg (by push_neg; exact ⟨not_lt.mp (not_lt.mpr ht1), ht0⟩), ha, hb]
  rfl

/-- C5: compare_movies computes |score_a - score_b| / score_a * 100 with
item_a's score as the denominator and returns True exactly when that
value strictly exceeds the threshold; and the comparison is asymmetric:
on scores 100 and 150 with threshold 40 the two argument orders give
different answers. -/
theorem compare_movies_formula :
    (∀ (df : ScoreFrame) (a b : ℕ) (t sa sb : ℚ),
        0 ≤ t → t ≤ 100 →
        lookupScore df a = Option.some sa →
        lookupScore df b = Option.some sb → 0 < sa →
        compare_movies df a b t = Except.ok (decide (|sa - sb| / sa * 100 > t)))
      ∧ compare_movies [(1, 100), (2, 150)] 1 2 40
          ≠ compare_movies [(1, 100), (2, 150)] 2 1 40 := by
  constructor
  · intro df a b t sa sb ht0 ht1 ha hb hsa
    rw [compare_movies_eval df a b t sa sb ht0 ht1 ha hb]
    simp only [fdiv]
    rw [if_neg hsa.ne']
    simp only [fmul100, fabs, fgtQ]
    have habs : |(sa - sb) / sa * 100| = |sa - sb| / sa * 100 := by
      rw [abs_mul, abs_div, abs_of_pos hsa]
      norm_num
    rw [habs]
  · have h1 : compare_movies [(1, 100), (2, 150)] 1 2 40 = Except.ok true := by
      have ha : lookupScore [(1, 100), (2, 150)] 1 = Option.some 100 := by rfl
      have hb : lookupScore [(1, 100), (2, 150)] 2 = Option.some 150 := by rfl
      rw [compare_movies_eval _ 1 2 40 100 150 (by norm_num) (by norm_num) ha hb]
      norm_num [fdiv, fmul100, fabs, fgtQ]
    have h2 : compare_movies [(1, 100), (2, 150)] 2 1 40 = Except.ok false := by
      have ha : lookupScore [(1, 100), (2, 150)] 2 = Option.some 150 := by rfl
      have hb : lookupScore [(1, 100), (2, 150)] 1 = Option.some 100 := by rfl
      rw [compare_movies_eval _ 2 1 40 150 100 (by norm_num) (by norm_num) ha hb]
      norm_num [fdiv, fmul100, fabs, fgtQ, abs_of_nonneg]
    rw [h1, h2]
    simp

/-- Witness for the universally quantified half of the C5 formula theorem
at the concrete frame [(1, 100), (2, 50)] with threshold 10. -/
theorem compare_movies_formula_witness :
    compare_movies [(1, 100), (2, 50)] 1 2 10
      = Except.ok (decide (|(100 : ℚ) - 50| / 100 * 100 > 10)) :=
  compare_movies_formula.1 [(1, 100), (2, 50)] 1 2 10 100 50
    (by norm_num) (by norm_num) rfl rfl (by norm_num)

/-- C6: the claim ranges over every threshold t ≥ 0, but at t = 101 the
source raises its ValueError instead of returning False, even on a movie
compared with itself. -/
theorem c6_counterexample :
    compare_movies [(1, 5)] 1 1 101 ≠ Except.ok false := by
  have h : compare_movies [(1, 5)] 1 1 101
      = Except.error CompareError.invalidThreshold := by
    norm_num [compare_movies]
  rw [h]
  exact fun hc => Except.noConfusion hc

/-- C6 (amended): for every threshold within the accepted range [0, 100],
comparing an item of nonzero score with itself returns False; and with
threshold 0 the comparison returns True whenever the two scores differ
(item_a's score nonzero). -/
theorem compare_movies_refl_and_zero_threshold :
    (∀ (df : ScoreFrame) (a : ℕ) (t sa : ℚ),
        0 ≤ t → t ≤ 100 → lookupScore df a = Option.some sa → sa ≠ 0 →
        compare_movies df a a t = Except.ok false)
      ∧ (∀ (df : ScoreFrame) (a b : ℕ) (sa sb : ℚ),
        lookupScore df a = Option.some sa → lookupScore df b = Option.some sb →
        sa ≠ 0 → sa ≠ sb →
        compare_movies df a b 0 = Except.ok true) := by
  constructor
  · intro df a t sa ht0 ht1 ha hsa
    rw [compare_movies_eval df a a t sa sa ht0 ht1 ha ha]
    simp only [sub_self, fdiv, if_neg hsa, zero_div, fmul100, zero_mul, fabs,
      abs_zero, fgtQ]
    rw [decide_eq_false (not_lt.mpr ht0)]
  · intro df a b sa sb ha hb hsa hne
    rw [compare_movies_eval df a b 0 sa sb le_rfl (by norm_num) ha hb]
    simp only [fdiv, if_neg hsa, fmul100, fabs, fgtQ]
    have hpos : (0 : ℚ) < |(sa - sb) / sa * 100| :=
      abs_pos.mpr (mul_ne_zero (div_ne_zero (sub_ne_zero.mpr hne) hsa) (by norm_num))
    rw [decide_eq_true hpos]

/-- Witness for the amended C6 theorem: score 5 compared with itself at
threshold 7 gives False, and scores 5 versus 8 at threshold 0 give
True. -/
theorem compare_movies_refl_witness :
    compare_movies [(1, 5)] 1 1 7 = Except.ok false
      ∧ compare_movies [(1, 5), (2, 8)] 1 2 0 = Except.ok true :=
  ⟨compare_movies_refl_and_zero_threshold.1 [(1, 5)] 1 7 5
      (by norm_num) (by norm_num) rfl (by norm_num),
    compare_movies_refl_and_zero_threshold.2 [(1, 5), (2, 8)] 1 2 5 8
      rfl rfl (by norm_num) (by norm_num)⟩

/-- C7: the claim asserts a division-by-zero failure whenever item_a's
score is zero, but the scores are numpy floats: with score_a = 0 and
score_b = 3 the division yields an infinity and the call returns the
boolean True instead of signalling any error. -/
theorem c7_counterexample :
    compare_movies [(1, 0), (2, 3)] 1 2 50 = Except.ok true := by
  rw [compare_movies_eval [(1, 0), (2, 3)] 1 2 50 0 3
    (by norm_num) (by norm_num) rfl rfl]
  norm_num [fdiv, fmul100, fabs, fgtQ]

/-- C7 (amended): when item_a's score is zero no error is signalled: the
float division produces a signed infinity whenever item_b's score is
nonzero, so the call returns True for every threshold in [0, 100]; when
both scores are zero the division produces NaN, whose comparison is
false, so the call returns False. -/
theorem compare_movies_zero_base :
    (∀ (df : ScoreFrame) (a b : ℕ) (t sb : ℚ),
        0 ≤ t → t ≤ 100 → lookupScore df a = Option.some 0 →
        lookupScore df b = Option.some sb → sb ≠ 0 →
        compare_movies df a b t = Except.ok true)
      ∧ (∀ (df : ScoreFrame) (a b : ℕ) (t : ℚ),
        0 ≤ t → t ≤ 100 → lookupScore df a = Option.some 0 →
        lookupScore df b = Option.some 0 →
        compare_movies df a b t = Except.ok false) := by
  constructor
  · intro df a b t sb ht0 ht1 ha hb hsb
    rw [compare_movies_eval df a b t 0 sb ht0 ht1 ha hb]
    rcases lt_or_gt_of_ne hsb with h | h
    · simp [fdiv, fmul100, fabs, fgtQ, hsb, h]
    · simp [fdiv, fmul100, fabs, fgtQ, hsb, not_lt.mpr (le_of_lt h)]
  · intro df a b t ht0 ht1 ha hb
    rw [compare_movies_eval df a b t 0 0 ht0 ht1 ha hb]
    simp [fdiv, fmul100, fabs, fgtQ]

/-- Witness for the amended C7 theorem: score 0 against score 3 returns
True at threshold 7, and score 0 against score 0 returns False. -/
theorem compare_movies_zero_base_witness :
    compare_movies [(1, 0), (2, 3)] 1 2 7 = Except.ok true
      ∧ compare_movies [(1, 0), (2, 0)] 1 2 7 = Except.ok false :=
  ⟨compare_movies_zero_base.1 [(1, 0), (2, 3)] 1 2 7 3
      (by norm_num) (by norm_num) rfl rfl (by norm_num),
    compare_movies_zero_base.2 [(1, 0), (2, 0)] 1 2 7
      (by norm_num) (by norm_num) rfl rfl⟩

/-- C10: when either movie id matches no dataframe row, the .iloc[0]
selection fails: for every valid threshold the call surfaces the
IndexError rather than returning a boolean or a dedicated unknown-item
error. -/
theorem compare_movies_unknown_movie (df : ScoreFrame) (a b : ℕ) (t : ℚ)
    (ht0 : 0 ≤ t) (ht1 : t ≤ 100)
    (h : lookupScore df a = Option.none ∨ lookupScore df b = Option.none) :
    compare_movies df a b t = Except.error CompareError.indexError := by
  unfold compare_movies
  rw [if_neg (by push_neg; exact ⟨ht1, ht0⟩)]
  rcases h with h | h
  · rw [h]
  · cases hha : lookupScore df a with
    | none => rfl
    | some sa => rw [h]

/-- Witness for the C10 unknown-movie theorem: movie 2 is absent from a
one-row frame, so the first lookup already fails. -/
theorem compare_movies_unknown_movie_witness :
    compare_movies [(1, 5)] 2 1 7 = Except.error CompareError.indexError :=
  compare_movies_unknown_movie [(1, 5)] 2 1 7 (by norm_num) (by norm_num)
    (Or.inl rfl)

/-- Ordering by score descending used to embed the pandas
sort_values(by=score, ascending=False) call.  The order of tied scores is
implementation-defined in the source (quicksort); the embedding fixes a
stable order, and no claim settled here relies on tie order. -/
def scoreGE (x y : ℕ × ℚ) : Prop := y.2 ≤ x.2

instance : DecidableRel scoreGE := fun x y => by unfold scoreGE; infer_instance

/-- The dataframe sorted by score descending. -/
def sortByScoreDesc (df : ScoreFrame) : ScoreFrame := List.insertionSort scoreGE df

/-- Embedding of pandas Series.unique: keep the first occurrence of each
value, in order. -/
def dedupFirst (l : List ℕ) : List ℕ :=
  l.foldl (fun acc x => if x ∈ acc then acc else acc ++ [x]) []

/-- The cold-start candidate pool: the first pool_size distinct movie ids
of the frame sorted by score descending. -/
def coldPool (df : ScoreFrame) (poolSize : ℕ) : List ℕ :=
  (dedupFirst ((sortByScoreDesc df).map (fun r => r.1))).take poolSize

/-- Embedding of RecommenderSystem.recommend_for_new_users.  The source
draws its indices by np.random.randint(0, size_of_pool, n): n independent
uniform draws WITH replacement from the ambient global NumPy state; the
draws enter here as an explicit list.  Fancy indexing the pool with an
out-of-range index raises IndexError, embedded as none. -/
def recommend_for_new_users (df : ScoreFrame) (poolSize : ℕ)
    (draws : List ℕ) : Option (List ℕ) :=
  let pool := coldPool df poolSize
  if draws.all (fun i => decide (i < pool.length)) then
    Option.some (draws.map (fun i => pool.getD i 0))
  else Option.none

/-- C2: the claim asserts the returned ids never contain a duplicate.
They can: the source samples with replacement, so the possible draw pair
(0, 0) returns the top movie twice. -/
theorem c2_counterexample :
    recommend_for_new_users [(10, 5), (20, 3), (30, 1)] 2 [0, 0]
        = Option.some [10, 10]
      ∧ ¬ ([10, 10] : List ℕ).Nodup := by
  constructor
  · norm_num [recommend_for_new_users, coldPool, sortByScoreDesc, dedupFirst,
      List.insertionSort, List.orderedInsert, scoreGE]
  · decide

/-- C2 (amended): whenever the call succeeds, the result has one item per
draw and every returned id belongs to the candidate pool — the first
pool_size distinct movie ids by score descending (tie order is the
sort's, not item_id ascending) — but the draws are made independently
with replacement from the ambient global random state, so duplicates can
occur and no seed is consumed. -/
theorem recommend_for_new_users_pool (df : ScoreFrame) (poolSize : ℕ)
    (draws res : List ℕ)
    (h : recommend_for_new_users df poolSize draws = Option.some res) :
    res.length = draws.length
      ∧ (∀ x ∈ res, x ∈ coldPool df poolSize)
      ∧ (coldPool df poolSize).length ≤ poolSize := by
  unfold recommend_for_new_users at h
  dsimp only at h
  split_ifs at h with hc
  · injection h with h'
    subst h'
    refine ⟨List.length_map _ _, ?_, ?_⟩
    · intro x hx
      rcases List.mem_map.mp hx with ⟨i, hi, rfl⟩
      have hil : i < (coldPool df poolSize).length :=
        of_decide_eq_true (List.all_eq_true.mp hc i hi)
      rw [List.getD_eq_getElem _ _ hil]
      exact List.getElem_mem hil
    · unfold coldPool
      exact List.length_take_le _ _

/-- Witness for the amended C2 theorem: a single draw of index 0 from a
one-movie pool returns that movie. -/
theorem recommend_for_new_users_pool_witness :
    ([7] : List ℕ).length = ([0] : List ℕ).length
      ∧ (∀ x ∈ ([7] : List ℕ), x ∈ coldPool [(7, 4)] 1)
      ∧ (coldPool [(7, 4)] 1).length ≤ 1 :=
  recommend_for_new_users_pool [(7, 4)] 1 [0] [7]
    (by norm_num [recommend_for_new_users, coldPool, sortByScoreDesc,
      dedupFirst, List.insertionSort, List.orderedInsert, scoreGE])

/-- Ranking order for recommendations: higher predicted score first, ties
by item id ascending so the order is total. -/
def rRank (x y : ℕ × ℚ) : Prop := y.2 < x.2 ∨ (x.2 = y.2 ∧ x.1 ≤ y.1)

instance : DecidableRel rRank := fun x y => by unfold rRank; infer_instance

instance : IsTotal (ℕ × ℚ) rRank :=
  ⟨fun a b => by
    unfold rRank
    rcases lt_trichotomy a.2 b.2 with h | h | h
    · exact Or.inr (Or.inl h)
    · rcases le_total a.1 b.1 with h1 | h1
      · exact Or.inl (Or.inr ⟨h, h1⟩)
      · exact Or.inr (Or.inr ⟨h.symm, h1⟩)
    · exact Or.inl (Or.inl h)⟩

instance : IsTrans (ℕ × ℚ) rRank :=
  ⟨fun a b c hab hbc => by
    unfold rRank at hab hbc ⊢
    rcases hab with h1 | ⟨h1, h1'⟩
    · rcases hbc with h2 | ⟨h2, h2'⟩
      · exact Or.inl (lt_trans h2 h1)
      · exact Or.inl (by rw [← h2]; exact h1)
    · rcases hbc with h2 | ⟨h2, h2'⟩
      · exact Or.inl (by rw [h1]; exact h2)
      · exact Or.inr ⟨h1.trans h2, le_trans h1' h2'⟩⟩

/-- Dot product of two factor rows. -/
def dot (a b : List ℚ) : ℚ := (List.zipWith (fun x y => x * y) a b).sum

/-- Modelled from the spec: the ranking step of recommend_for_user is the
implicit library's AlternatingLeastSquares.recommend, an external
dependency whose code is not part of this repository.  Following §4.4 of
the spec, every item of the factor range is scored by the dot product of
the user's factor row with the item's factor row, items already nonzero
in the user row that the source passes (filter_already_liked_items) are
excluded, and the n best of the remaining items are returned in ranking
order. -/
def recommend_for_user (uf itf train : Mat) (u n : ℕ) : List (ℕ × ℚ) :=
  let row := train.getD u []
  let scored := ((List.range itf.length).filter
      (fun i => decide (row.getD i 0 = 0))).map
    (fun i => (i, dot (uf.getD u []) (itf.getD i [])))
  (List.insertionSort rRank scored).take n

/-- C3: the claim asserts the returned sequence is strictly descending by
predicted score.  With item factors [[2]], [[1]], [[1]] and user factor
[[1]], items 1 and 2 tie at predicted score 1, so the returned sequence
2, 1, 1 is not strictly descending. -/
theorem c3_counterexample :
    ¬ List.Chain' (fun x y : ℕ × ℚ => y.2 < x.2)
      (recommend_for_user [[1]] [[2], [1], [1]] [[]] 0 3) := by
  have hres : recommend_for_user [[1]] [[2], [1], [1]] [[]] 0 3
      = [(0, 2), (1, 1), (2, 1)] := by
    norm_num [recommend_for_user, dot, List.insertionSort, List.orderedInsert,
      rRank]
  rw [hres]
  simp [List.chain'_cons]

/-- C3 (amended): for every factor model, training matrix, user and n,
the returned sequence has length at most n, is weakly descending by
predicted score (strictly descending whenever no two candidate items tie),
and contains no item that is nonzero in the user's row of the matrix the
source passes to the ranking call. -/
theorem recommend_for_user_props (uf itf train : Mat) (u n : ℕ) :
    (recommend_for_user uf itf train u n).length ≤ n
      ∧ List.Chain' (fun x y : ℕ × ℚ => y.2 ≤ x.2)
          (recommend_for_user uf itf train u n)
      ∧ ∀ p ∈ recommend_for_user uf itf train u n,
          (train.getD u []).getD p.1 0 = 0 := by
  unfold recommend_for_user
  dsimp only
  refine ⟨List.length_take_le _ _, ?_, ?_⟩
  · have hsorted := List.sorted_insertionSort rRank
      (((List.range itf.length).filter
        (fun i => decide ((train.getD u []).getD i 0 = 0))).map
        (fun i => (i, dot (uf.getD u []) (itf.getD i []))))
    have htake := hsorted.sublist (List.take_sublist n _)
    have hweak : List.Pairwise (fun x y : ℕ × ℚ => y.2 ≤ x.2)
        ((List.insertionSort rRank
          (((List.range itf.length).filter
            (fun i => decide ((train.getD u []).getD i 0 = 0))).map
            (fun i => (i, dot (uf.getD u []) (itf.getD i []))))).take n) := by
      refine htake.imp ?_
      intro x y hxy
      rcases hxy with h | ⟨h, _⟩
      · exact le_of_lt h
      · exact h.ge
    exact hweak.chain'
  · intro p hp
    have hp1 := List.mem_of_mem_take hp
    have hp2 := (List.mem_insertionSort rRank).mp hp1
    rcases List.mem_map.mp hp2 with ⟨i, hi, rfl⟩
    exact of_decide_eq_true (List.mem_filter.mp hi).2

/-- A pseudo-random rational in [0, 1) derived from a generator state:
stands in for one small random initial factor value. -/
def randQ (s : ℕ) : ℚ := ((s % 1000 : ℕ) : ℚ) / 1000

/-- A list of pseudo-random factor values together with the generator
state left behind. -/
def randList : ℕ → ℕ → List ℚ × ℕ
  | s, 0 => ([], s)
  | s, n + 1 =>
    let s1 := lcgNext s
    let rest := randList s1 n
    (randQ s1 :: rest.1, rest.2)

/-- A pseudo-random factor matrix (rows × cols) and the state left
behind. -/
def randMat : ℕ → ℕ → ℕ → Mat × ℕ
  | s, 0, _ => ([], s)
  | s, r + 1, c =>
    let row := randList s c
    let rest := randMat row.2 r c
    (row.1 :: rest.1, rest.2)

/-- Modelled from the spec: the hyperparameters the notebook forwards as
keyword arguments to the implicit library's AlternatingLeastSquares
constructor.  random_state is the ALS seed; the library draws its factor
initialization from the ambient global random state when it is absent. -/
structure Hyper where
  factors : ℕ
  regularization : ℚ
  alpha : ℚ
  iterations : ℕ
  random_state : Option ℕ

/-- The augmented k×(k+1) normal-equation system for one row solve,
following §4.2 of the spec: row j holds the entries of Yᵀ C_u Y + λI
followed by the entry of Yᵀ C_u p_u, with confidence c_i = 1 + α·w_i and
binarized preference p_i = 1 exactly when w_i > 0. -/
def rowSystem (Y : Mat) (w : Row) (alpha lam : ℚ) (k : ℕ) : Mat :=
  (List.range k).map (fun j =>
    ((List.range k).map (fun l =>
      (if j = l then lam else 0) +
        ((List.range Y.length).map (fun i =>
          (1 + alpha * w.getD i 0) * (Y.getD i []).getD j 0
            * (Y.getD i []).getD l 0)).sum))
    ++ [((List.range Y.length).map (fun i =>
          (1 + alpha * w.getD i 0) * (if 0 < w.getD i 0 then 1 else 0)
            * (Y.getD i []).getD j 0)).sum])

/-- Gaussian elimination on an augmented system, the exact small linear
solve of §4.2 (in place of Cholesky; both are exact).  The fuel argument
is the system dimension; a zero pivot falls back to the zero vector (out
of scope for the claims settled here, which use λ > 0). -/
def elim : ℕ → List Row → List ℚ
  | 0, _ => []
  | _ + 1, [] => []
  | fuel + 1, pr :: rest =>
    let p := pr.getD 0 0
    if p = 0 then List.replicate (pr.length - 1) 0
    else
      let rest2 := rest.map (fun r =>
        (List.zipWith (fun a b => a - (r.getD 0 0 / p) * b) r pr).drop 1)
      let xs := elim fuel rest2
      ((pr.getD (xs.length + 1) 0
          - dot ((pr.drop 1).take xs.length) xs) / p) :: xs

/-- One half-iteration: solve every row of W against the frozen opposite
factor matrix Y. -/
def userStep (W Y : Mat) (alpha lam : ℚ) (k : ℕ) : Mat :=
  W.map (fun w => elim k (rowSystem Y w alpha lam k))

/-- Transpose of the weight matrix onto a fixed column count. -/
def transposeMat (m : Mat) (cols : ℕ) : Mat :=
  (List.range cols).map (fun i => m.map (fun r => r.getD i 0))

/-- The number of columns of the matrix. -/
def maxRowLen (m : Mat) : ℕ := (m.map List.length).foldr max 0

/-- The alternating loop: each full iteration resolves the user factors
against the frozen item factors, then the item factors against the fresh
user factors. -/
def alsIterate (W Wt : Mat) (alpha lam : ℚ) (k : ℕ) : ℕ → Mat × Mat → Mat × Mat
  | 0, XY => XY
  | n + 1, XY =>
    let X1 := userStep W XY.2 alpha lam k
    let Y1 := userStep Wt X1 alpha lam k
    alsIterate W Wt alpha lam k n (X1, Y1)

/-- Modelled from the spec: AlternatingLeastSquares.fit of the implicit
library is an external dependency whose code is not part of this
repository.  Following §4.2 of the spec, both factor matrices are
initialized with small random values drawn from the given seed, then the
configured number of full alternations of exact per-row least-squares
solves is run. -/
def alsFit (W : Mat) (nItems : ℕ) (h : Hyper) (seed : ℕ) : Mat × Mat :=
  let p1 := randMat seed W.length h.factors
  let p2 := randMat p1.2 nItems h.factors
  alsIterate W (transposeMat W nItems) h.alpha h.regularization h.factors
    h.iterations (p1.1, p2.1)

/-- A file operation performed by a method of the system. -/
inductive FileOp where
  | read : String → FileOp
  | write : String → FileOp

/-- Embedding of RecommenderSystem.fit: split the interaction matrix by
the split seed (the ambient state stands in when random_state is absent),
train ALS on the train rows with the ALS seed taken from the forwarded
hyperparameters — or drawn from the ambient global state when the caller
supplied none — and finally save the model.  The second component is the
trace of file operations the body performs: the split, the ALS training
and the MAP evaluation do no file I/O, and the closing model.save call
writes one file.  The evaluation score is pure and not needed by any
claim, so it is not carried. -/
def fitFull (m : Mat) (testSize : ℚ) (randomState : Option ℕ) (h : Hyper)
    (saveAddr : String) (ambient : ℕ) : (Mat × Mat) × List FileOp :=
  let perm := permOfSeed (randomState.getD ambient) m.length
  let train := (splitRows m perm testSize).1
  let alsSeed := h.random_state.getD (lcgNext ambient)
  (alsFit train (maxRowLen m) h alsSeed, [FileOp.write saveAddr])

/-- C4: the claim asserts that two training runs on the same matrix with
the same hyperparameters and the same seed produce identical factor
models.  They do not: fit's random_state seeds only the train/test
split, and with no random_state among the forwarded ALS hyperparameters
the factor initialization is drawn from the ambient global random state,
which differs between runs (here states 0 and 1). -/
theorem c4_counterexample :
    (fitFull [[2], [3]] (1/2) (Option.some 5) (Hyper.mk 1 1 1 1 Option.none)
        "./models/als_recommender_model.npz" 0).1
      ≠ (fitFull [[2], [3]] (1/2) (Option.some 5) (Hyper.mk 1 1 1 1 Option.none)
        "./models/als_recommender_model.npz" 1).1 := by
  have hperm : permOfSeed 5 2 = [0, 1] := by decide
  have htrain : (splitRows [[(2 : ℚ)], [3]] [0, 1] (1/2)).1 = [[3]] := by
    norm_num [splitRows, nTestCount, List.getD_cons_zero, List.getD_cons_succ]
  have hl0 : lcgNext 0 = 1013904223 := by norm_num [lcgNext]
  have hl1 : lcgNext 1 = 1015568748 := by norm_num [lcgNext]
  have hmax : maxRowLen [[(2 : ℚ)], [3]] = 1 := by norm_num [maxRowLen]
  have hals0 : alsFit [[(3 : ℚ)]] 1 (Hyper.mk 1 1 1 1 Option.none) 1013904223
      = ([[697000/735809]], [[2051435492000/2484650884481]]) := by
    norm_num [alsFit, randMat, randList, randQ, lcgNext, alsIterate, userStep,
      rowSystem, elim, dot, transposeMat, List.range_succ]
  have hals1 : alsFit [[(3 : ℚ)]] 1 (Hyper.mk 1 1 1 1 Option.none) 1015568748
      = ([[9500/62861]], [[2388718000/4312505321]]) := by
    norm_num [alsFit, randMat, randList, randQ, lcgNext, alsIterate, userStep,
      rowSystem, elim, dot, transposeMat, List.range_succ]
  simp only [fitFull, Option.getD_some, Option.getD_none, List.length_cons,
    List.length_nil]
  rw [hperm, htrain, hl0, hl1, hmax, hals0, hals1]
  simp [Prod.ext_iff]
  norm_num

/-- C4 (amended): training is deterministic once BOTH seeds are pinned:
with a split random_state given to fit and a random_state included among
the forwarded ALS hyperparameters, the resulting factor model is
independent of the ambient global random state, so two runs agree for
every matrix, test fraction and hyperparameter setting. -/
theorem fit_deterministic (m : Mat) (ts : ℚ) (r s k : ℕ) (lam alpha : ℚ)
    (iters : ℕ) (addr : String) (amb1 amb2 : ℕ) :
    (fitFull m ts (Option.some r)
        (Hyper.mk k lam alpha iters (Option.some s)) addr amb1).1
      = (fitFull m ts (Option.some r)
        (Hyper.mk k lam alpha iters (Option.some s)) addr amb2).1 := by
  simp only [fitFull, Option.getD_some]

/-- C9: the claim asserts no file is read or written unless the caller
explicitly invokes save or load, but fit unconditionally ends by saving
the model: its file-operation trace is nonempty on every call, here shown
at a concrete one. -/
theorem c9_counterexample :
    (fitFull [[1]] (1/2) (Option.some 0) (Hyper.mk 1 1 1 1 (Option.some 0))
        "./models/als_recommender_model.npz" 0).2 ≠ [] := by
  simp [fitFull]

/-- C9 (amended): fit performs exactly one file operation on every call —
the closing model.save write to the configured model address — and no
read; the split, the ALS training and the evaluation perform no file
I/O. -/
theorem fit_writes_model (m : Mat) (ts : ℚ) (rs : Option ℕ) (h : Hyper)
    (addr : String) (amb : ℕ) :
    (fitFull m ts rs h addr amb).2 = [FileOp.write addr] := rfl

end Recommender
